import Mathlib

/-!
Verification of the plant-monitor data collector (src/data collector/plant_monitor.py).

The program is a single timer-driven control loop: it drains parsed voltage
samples from a serial port into a fixed-capacity deque, ages visual markers,
drains a single-slot pending-event register, and — while a recording session
is active — appends one CSV row per accepted sample.  We embed the state and
the operations of that loop as pure Lean functions and prove the specified
properties about them.

Conventions of the embedding:
* Python floats are modelled as rationals (ℚ); the program only does
  arithmetic and comparisons on them, which `ℚ` represents exactly.
* Wall-clock strings (`datetime.now().strftime(...)`, the formatted elapsed
  time) are opaque inputs to each step.
* The file system is explicit: an open CSV file is the list of rows written
  so far, and closing it moves `(filename, rows)` into `saved_files`.
* `print` diagnostics are modelled as strings appended to a `console` list;
  the string constants stand for the (Chinese-language) messages printed by
  the script.
-/

/-- Constant `MAX_POINTS = 300`, the fixed deque capacity (plant_monitor.py line 31). -/
def MAX_POINTS : ℕ := 300

/-- Constant `NOISE_THRESHOLD = 0.002` (line 17). -/
def NOISE_THRESHOLD : ℚ := 2 / 1000

/-- The deque is created already full: `deque([0.0] * MAX_POINTS, maxlen=MAX_POINTS)`
(line 32). -/
def initBuffer : List ℚ := List.replicate MAX_POINTS 0

/-- Operation `data_buffer.append(voltage)` on a deque with `maxlen=MAX_POINTS`:
append on the right, evicting from the left whenever the length would
exceed the capacity (line 184). -/
def pushBuffer (b : List ℚ) (v : ℚ) : List ℚ :=
  let b2 := b ++ [v]
  if MAX_POINTS < b2.length then b2.drop (b2.length - MAX_POINTS) else b2

lemma pushBuffer_of_full {b : List ℚ} (hb : b.length = MAX_POINTS) (v : ℚ) :
    pushBuffer b v = (b ++ [v]).drop 1 := by
  have h2 : (b ++ [v]).length = MAX_POINTS + 1 := by
    simp [hb]
  simp only [pushBuffer, h2]
  rw [if_pos (Nat.lt_succ_self _)]
  congr 1

lemma length_pushBuffer_of_full {b : List ℚ} (hb : b.length = MAX_POINTS) (v : ℚ) :
    (pushBuffer b v).length = MAX_POINTS := by
  rw [pushBuffer_of_full hb v]
  simp [hb]

/-- Folding `pushBuffer` over a full buffer keeps it full and the result is
the suffix of the concatenation: the most recent `MAX_POINTS` values. -/
lemma foldl_pushBuffer_of_full (xs : List ℚ) :
    ∀ b : List ℚ, b.length = MAX_POINTS →
      (List.foldl pushBuffer b xs).length = MAX_POINTS ∧
      List.foldl pushBuffer b xs = (b ++ xs).drop xs.length := by
  induction xs with
  | nil =>
    intro b hb
    constructor
    · simpa using hb
    · simp
  | cons x xs ih =>
    intro b hb
    have hstep : pushBuffer b x = (b ++ [x]).drop 1 := pushBuffer_of_full hb x
    have hlen : (pushBuffer b x).length = MAX_POINTS := length_pushBuffer_of_full hb x
    obtain ⟨ihlen, iheq⟩ := ih (pushBuffer b x) hlen
    refine ⟨by simpa using ihlen, ?_⟩
    have h1 : List.foldl pushBuffer b (x :: xs) = List.foldl pushBuffer (pushBuffer b x) xs := rfl
    rw [h1, iheq, hstep]
    have key : List.drop 1 (b ++ [x]) ++ xs = List.drop 1 ((b ++ [x]) ++ xs) :=
      (List.drop_append_of_le_length (by simp)).symm
    rw [key, List.drop_drop]
    have hassoc : b ++ x :: xs = (b ++ [x]) ++ xs := by simp
    rw [hassoc]
    congr 1
    simp [Nat.add_comm]

/-- C1: For every sequence of pushes, the ring-buffer snapshot has exactly
`MAX_POINTS` elements and equals the most recent `MAX_POINTS` entries of
(initial filler values followed by the pushed samples), in arrival order:
every insert evicts the oldest element. -/
theorem ringBuffer_snapshot (xs : List ℚ) :
    (List.foldl pushBuffer initBuffer xs).length = MAX_POINTS ∧
    List.foldl pushBuffer initBuffer xs = (initBuffer ++ xs).drop xs.length := by
  exact foldl_pushBuffer_of_full xs initBuffer (by simp [initBuffer])

/-- The four trend labels shown in the statistics panel (lines 243-250);
`Wait` is the initial value kept when fewer than 50 samples are available. -/
inductive Trend where
  | Wait : Trend
  | Rising : Trend
  | Falling : Trend
  | Stable : Trend
deriving DecidableEq, Repr

/-- Function `np.diff`: consecutive first differences. -/
def npDiff (l : List ℚ) : List ℚ := List.zipWith (fun a b => b - a) l l.tail

/-- Python `list[-50:]` under the guard `len >= 50`: the last `n` elements. -/
def lastN (n : ℕ) (l : List ℚ) : List ℚ := l.drop (l.length - n)

/-- The trend classification of lines 243-250: keep `Wait` when the buffer
has fewer than 50 entries; otherwise count first differences of the last 50
entries above `NOISE_THRESHOLD` as up and below `-NOISE_THRESHOLD` as down,
and classify `Rising` when `up > down + 5`, `Falling` when `down > up + 5`,
else `Stable`. -/
def trend (buf : List ℚ) : Trend :=
  if buf.length < 50 then Trend.Wait
  else
    let diffs := npDiff (lastN 50 buf)
    let up := (diffs.filter (fun d => decide (NOISE_THRESHOLD < d))).length
    let down := (diffs.filter (fun d => decide (d < -NOISE_THRESHOLD))).length
    if down + 5 < up then Trend.Rising
    else if up + 5 < down then Trend.Falling
    else Trend.Stable

/-- Spec-side rendering of "first-differences" (each element minus its
predecessor), written by direct recursion to compare with `npDiff`. -/
def specFirstDiffs : List ℚ → List ℚ
  | a :: b :: rest => (b - a) :: specFirstDiffs (b :: rest)
  | _ => []

/-- Spec-side up-count: first differences of the last 50 samples that exceed
the positive noise threshold. -/
def specUpCount (buf : List ℚ) : ℕ :=
  (specFirstDiffs (lastN 50 buf)).countP (fun d => decide (NOISE_THRESHOLD < d))

/-- Spec-side down-count: first differences of the last 50 samples below the
negation of the noise threshold. -/
def specDownCount (buf : List ℚ) : ℕ :=
  (specFirstDiffs (lastN 50 buf)).countP (fun d => decide (d < -NOISE_THRESHOLD))

lemma npDiff_eq_specFirstDiffs : ∀ l : List ℚ, npDiff l = specFirstDiffs l := by
  intro l
  match l with
  | [] => rfl
  | [a] => rfl
  | a :: b :: rest =>
    show (b - a) :: npDiff (b :: rest) = (b - a) :: specFirstDiffs (b :: rest)
    rw [npDiff_eq_specFirstDiffs (b :: rest)]

/-- Sequence `rampUp n a d`: `n` samples starting at `a` with constant step `d`. -/
def rampUp : ℕ → ℚ → ℚ → List ℚ
  | 0, _, _ => []
  | n + 1, a, d => a :: rampUp n (a + d) d

/-- Fifty strictly increasing samples, each step `0.003 > NOISE_THRESHOLD`. -/
def risingInput50 : List ℚ := rampUp 50 0 (3 / 1000)

/-- Fifty strictly decreasing samples, each step `-0.003 < -NOISE_THRESHOLD`. -/
def fallingInput50 : List ℚ := rampUp 50 1 (-(3 / 1000))

lemma length_rampUp : ∀ (n : ℕ) (a d : ℚ), (rampUp n a d).length = n := by
  intro n
  induction n with
  | zero => intro a d; rfl
  | succ n ih => intro a d; simp [rampUp, ih]

lemma specFirstDiffs_rampUp :
    ∀ (n : ℕ) (a d : ℚ), specFirstDiffs (rampUp (n + 1) a d) = List.replicate n d := by
  intro n
  induction n with
  | zero => intro a d; rfl
  | succ n ih =>
    intro a d
    show specFirstDiffs (a :: (a + d) :: rampUp n (a + d + d) d) = List.replicate (n + 1) d
    have h1 : specFirstDiffs (a :: (a + d) :: rampUp n (a + d + d) d)
        = (a + d - a) :: specFirstDiffs ((a + d) :: rampUp n (a + d + d) d) := rfl
    rw [h1, add_sub_cancel_left]
    have h2 : (a + d) :: rampUp n (a + d + d) d = rampUp (n + 1) (a + d) d := rfl
    rw [h2, ih (a + d) d]
    rfl

lemma rampUp_const : ∀ (n : ℕ) (a : ℚ), rampUp n a 0 = List.replicate n a := by
  intro n
  induction n with
  | zero => intro a; rfl
  | succ n ih => intro a; show a :: rampUp n (a + 0) 0 = _; rw [add_zero, ih]; rfl

/-- Evaluates trend on a constant-step ramp of 50 samples. -/
lemma trend_rampUp50 (a d : ℚ) :
    trend (rampUp 50 a d) =
      (if decide (NOISE_THRESHOLD < d) then Trend.Rising
       else if decide (d < -NOISE_THRESHOLD) then Trend.Falling
       else Trend.Stable) := by
  have hlen : (rampUp 50 a d).length = 50 := length_rampUp 50 a d
  have hlast : lastN 50 (rampUp 50 a d) = rampUp 50 a d := by
    simp [lastN, hlen]
  have hdiffs : npDiff (lastN 50 (rampUp 50 a d)) = List.replicate 49 d := by
    rw [hlast, npDiff_eq_specFirstDiffs]
    exact specFirstDiffs_rampUp 49 a d
  simp only [trend, hlen, hdiffs, List.filter_replicate]
  norm_num
  by_cases hup : NOISE_THRESHOLD < d
  · have hdown : ¬ d < -NOISE_THRESHOLD := by
      simp only [NOISE_THRESHOLD] at hup ⊢
      intro hc
      linarith
    simp [hup, hdown]
  · by_cases hdown : d < -NOISE_THRESHOLD
    · simp [hup, hdown]
    · simp [hup, hdown]

/-- C3: trend classification is `Wait` below 50 samples; at or above 50 it is
determined by the up/down counts of the first differences of the last 50
samples exactly as the spec states; in particular 50 strictly increasing
samples give `Rising`, 50 strictly decreasing give `Falling`, and 50
constant samples give `Stable`. -/
theorem trend_classification :
    (∀ buf : List ℚ, buf.length < 50 → trend buf = Trend.Wait) ∧
    (∀ buf : List ℚ, 50 ≤ buf.length →
      trend buf =
        if specDownCount buf + 5 < specUpCount buf then Trend.Rising
        else if specUpCount buf + 5 < specDownCount buf then Trend.Falling
        else Trend.Stable) ∧
    trend risingInput50 = Trend.Rising ∧
    trend fallingInput50 = Trend.Falling ∧
    trend (List.replicate 50 (2 : ℚ)) = Trend.Stable := by
  refine ⟨?_, ?_, ?_, ?_, ?_⟩
  · intro buf h
    simp [trend, h]
  · intro buf h
    have hn : ¬ buf.length < 50 := not_lt.mpr h
    simp only [trend, hn, if_false, specUpCount, specDownCount,
      ← npDiff_eq_specFirstDiffs, List.countP_eq_length_filter]
  · rw [risingInput50, trend_rampUp50]
    norm_num [NOISE_THRESHOLD]
  · rw [fallingInput50, trend_rampUp50]
    norm_num [NOISE_THRESHOLD]
  · have h : List.replicate 50 (2 : ℚ) = rampUp 50 2 0 := (rampUp_const 50 2).symm
    rw [h, trend_rampUp50]
    norm_num [NOISE_THRESHOLD]

/-- Witness for C3 at concrete inputs. -/
theorem trend_classification_witness :
    trend [(1 : ℚ), 2, 3] = Trend.Wait ∧
    trend (List.replicate 50 (2 : ℚ)) =
      (if specDownCount (List.replicate 50 (2 : ℚ)) + 5 < specUpCount (List.replicate 50 (2 : ℚ))
       then Trend.Rising
       else if specUpCount (List.replicate 50 (2 : ℚ)) + 5 < specDownCount (List.replicate 50 (2 : ℚ))
       then Trend.Falling else Trend.Stable) :=
  ⟨trend_classification.1 [(1 : ℚ), 2, 3] (by decide),
   trend_classification.2.1 (List.replicate 50 (2 : ℚ)) (by decide)⟩

/-- A visual marker (lines 201-206): the plot artists are abstracted away,
keeping the label text and the x-position, which doubles as the remaining
lifetime in buffer cells (`active_markers[i][2]`). -/
structure Marker where
  label : String
  life : ℤ
deriving DecidableEq, Repr

/-- One row of a session's CSV file: either the header row written at start
(line 97) or a data row written per accepted sample (line 216). -/
inductive CsvRow where
  | headerRow (fields : List String) : CsvRow
  | dataRow (timeStr : String) (timeSec : String) (voltage : ℚ) (eventNote : String) : CsvRow
deriving DecidableEq, Repr

/-- The module-level mutable state of plant_monitor.py (sections 2 and 3),
restricted to the fields the control logic reads or writes.  `csv_file` is
the open file's contents (`none` when no file is open; the `csv_writer`
handle is non-`none` exactly when `csv_file` is); `saved_files` models the
file system after `close()`; `console` models `print` output. -/
structure MonitorState where
  data_buffer : List ℚ
  active_markers : List Marker
  pending_event : Option String
  is_recording : Bool
  current_run_id : ℕ
  csv_file : Option (List CsvRow)
  current_filename : String
  last_valid_voltage : ℚ
  saved_files : List (String × List CsvRow)
  console : List String
deriving DecidableEq

/-- The initial values of the globals (lines 23-37). -/
def initState : MonitorState :=
  { data_buffer := initBuffer
    active_markers := []
    pending_event := none
    is_recording := false
    current_run_id := 0
    csv_file := none
    current_filename := "Ready to Record"
    last_valid_voltage := 0
    saved_files := []
    console := [] }

/-- Stands for the printed diagnostic of line 107 (file-creation failure). -/
def MSG_CREATE_FAILED : String := "create file failed"

/-- Python `f"{n:02d}"`: decimal, zero-padded to width 2. -/
def fmt2 (n : ℕ) : String := if n < 10 then "0" ++ toString n else toString n

/-- The marker-aging loop of lines 188-194: every active marker's position
counter is decremented by one, and markers whose counter became negative
are removed (order of the survivors is preserved). -/
def stepMarkers : List Marker → List Marker
  | [] => []
  | m :: ms =>
    let m2 : Marker := { label := m.label, life := m.life - 1 }
    if m2.life < 0 then stepMarkers ms else m2 :: stepMarkers ms

/-- The preset-button callback (lines 153-155) and, for nonempty text, the
custom-note callback (lines 167-168): overwrite the single-slot pending
event register. -/
def setPendingEvent (label : String) (s : MonitorState) : MonitorState :=
  { s with pending_event := some label }

/-- Processing of one accepted sample inside `update` (lines 183-218):
push to the buffer, remember the last valid voltage, age markers, consume
the pending event into a note (empty string when none) and a fresh marker
at `MAX_POINTS - 1`, and, while recording with an open file, append one CSV
data row. -/
def processSample (timeStr elapsedStr : String) (v : ℚ) (s : MonitorState) : MonitorState :=
  let buf := pushBuffer s.data_buffer v
  let agedMarkers := stepMarkers s.active_markers
  let noteToSave : String :=
    match s.pending_event with
    | some l => l
    | none => ""
  let newMarkers :=
    match s.pending_event with
    | some l => agedMarkers ++ [{ label := l, life := (MAX_POINTS : ℤ) - 1 }]
    | none => agedMarkers
  let newFile :=
    if s.is_recording then
      match s.csv_file with
      | some rows => some (rows ++ [CsvRow.dataRow timeStr elapsedStr v noteToSave])
      | none => none
    else s.csv_file
  { s with
    data_buffer := buf
    last_valid_voltage := v
    active_markers := newMarkers
    pending_event := none
    csv_file := newFile }

/-- One raw serial line: the opaque wall-clock and elapsed-time strings of
the tick it is handled in, and `some v` when `float(raw_line)` succeeds,
`none` when it raises `ValueError` (line 220) and the line is discarded. -/
def RawItem : Type := String × String × Option ℚ

/-- Handling of one raw line in the acquisition loop: accepted samples go
through `processSample`, malformed lines leave the state unchanged. -/
def processRaw (s : MonitorState) (it : RawItem) : MonitorState :=
  match it.2.2 with
  | some v => processSample it.1 it.2.1 v s
  | none => s

/-- The fixed header row written at session start (line 97). -/
def CSV_HEADER : List String := ["Timestamp", "Time_Sec", "Voltage", "Event_Note"]

/-- The record button callback (lines 80-122).  `openOk` is whether
`open(current_filename, 'w')` succeeds; `ts` is the `strftime("%H%M%S")`
stamp.  Starting increments the run counter, derives the filename, opens
the file and writes the header; on open failure the recording flag is reset
and a message is printed (run counter and filename keep their new values).
Stopping closes the file, which persists its rows under the session's
filename. -/
def func_record_toggle (openOk : Bool) (ts : String) (s : MonitorState) : MonitorState :=
  let nowRecording := !s.is_recording
  if nowRecording then
    let rid := s.current_run_id + 1
    let fname := "Run_" ++ fmt2 rid ++ "_" ++ ts ++ ".csv"
    if openOk then
      { s with
        is_recording := true
        current_run_id := rid
        current_filename := fname
        csv_file := some [CsvRow.headerRow CSV_HEADER]
        console := s.console ++ ["REC start: " ++ fname] }
    else
      { s with
        is_recording := false
        current_run_id := rid
        current_filename := fname
        console := s.console ++ [MSG_CREATE_FAILED] }
  else
    match s.csv_file with
    | some rows =>
      { s with
        is_recording := false
        csv_file := none
        saved_files := s.saved_files ++ [(s.current_filename, rows)]
        console := s.console ++ ["saved: " ++ s.current_filename] }
    | none => { s with is_recording := false }

/-- The reset-view button callback (lines 140-147): refill the buffer with
the last valid voltage and drop all markers. -/
def func_clear (s : MonitorState) : MonitorState :=
  { s with
    data_buffer := List.replicate MAX_POINTS s.last_valid_voltage
    active_markers := []
    console := s.console ++ ["view reset"] }

/-- Function `np.mean` over the buffer (line 241). -/
def npMean (l : List ℚ) : ℚ := l.sum / (l.length : ℚ)

/-- Function `np.min` over the (always nonempty) buffer (line 239). -/
def npMin : List ℚ → ℚ
  | [] => 0
  | x :: xs => xs.foldl min x

/-- Function `np.max` over the (always nonempty) buffer (line 239). -/
def npMax : List ℚ → ℚ
  | [] => 0
  | x :: xs => xs.foldl max x

/-- Whether a raw line parses as a voltage (an "accepted" sample). -/
def isAccepted (it : RawItem) : Bool := it.2.2.isSome

/-- The number of accepted samples in a list of raw lines. -/
def countAccepted (items : List RawItem) : ℕ := (items.filter isAccepted).length

/-- The index-based decrement-and-remove loop over markers is a map of the
decrement followed by a filter keeping the non-negative counters. -/
lemma stepMarkers_eq (ms : List Marker) :
    stepMarkers ms =
      (ms.map (fun m => ({ label := m.label, life := m.life - 1 } : Marker))).filter
        (fun m => decide (0 ≤ m.life)) := by
  induction ms with
  | nil => rfl
  | cons m ms ih =>
    by_cases h : m.life - 1 < 0
    · have hd : decide ((0 : ℤ) ≤ m.life - 1) = false := decide_eq_false (not_le.mpr h)
      simp [stepMarkers, h, hd, ih, List.filter_cons]
      rw [if_neg (by omega)]
    · have hd : decide ((0 : ℤ) ≤ m.life - 1) = true := decide_eq_true (not_lt.mp h)
      simp [stepMarkers, h, hd, ih, List.filter_cons]
      rw [if_pos (by omega)]

/-- C7: On every accepted sample, each active marker has its lifetime
counter decremented exactly once and is removed exactly when the counter
became negative; one new marker at `MAX_POINTS - 1` is created exactly when
a pending event is consumed. -/
theorem marker_lifecycle (s : MonitorState) (tS eS : String) (v : ℚ) :
    (processSample tS eS v s).active_markers =
      ((s.active_markers.map (fun m => ({ label := m.label, life := m.life - 1 } : Marker))).filter
        (fun m => decide (0 ≤ m.life)))
      ++ (match s.pending_event with
          | some l => [({ label := l, life := (MAX_POINTS : ℤ) - 1 } : Marker)]
          | none => []) := by
  cases hp : s.pending_event with
  | none => simp [processSample, hp, stepMarkers_eq]
  | some l => simp [processSample, hp, stepMarkers_eq]

/-- C4: the pending-event register holds one label: a second `set` before a
consume overwrites the first, the consuming sample records exactly the
second label (as its CSV note), and after consumption the register is
empty, so the next sample records the empty sentinel note. -/
theorem pending_event_single_slot (s : MonitorState)
    (l1 l2 tS eS tS2 eS2 : String) (v v2 : ℚ) (rows : List CsvRow)
    (hrec : s.is_recording = true) (hfile : s.csv_file = some rows) :
    setPendingEvent l2 (setPendingEvent l1 s) = setPendingEvent l2 s ∧
    (setPendingEvent l2 (setPendingEvent l1 s)).pending_event = some l2 ∧
    (processSample tS eS v (setPendingEvent l2 (setPendingEvent l1 s))).csv_file
      = some (rows ++ [CsvRow.dataRow tS eS v l2]) ∧
    (processSample tS eS v (setPendingEvent l2 (setPendingEvent l1 s))).pending_event = none ∧
    (processSample tS2 eS2 v2
        (processSample tS eS v (setPendingEvent l2 (setPendingEvent l1 s)))).csv_file
      = some (rows ++ [CsvRow.dataRow tS eS v l2, CsvRow.dataRow tS2 eS2 v2 ""]) := by
  refine ⟨rfl, rfl, ?_, rfl, ?_⟩
  · simp [processSample, setPendingEvent, hrec, hfile]
  · simp [processSample, setPendingEvent, hrec, hfile]

/-- Witness for C4 at a concrete recording state. -/
theorem pending_event_single_slot_witness :
    (processSample "t1" "e1" 1
        (setPendingEvent "Touch" (setPendingEvent "Fire Stimulus"
          ({ initState with is_recording := true, csv_file := some [] })))).csv_file
      = some [CsvRow.dataRow "t1" "e1" 1 "Touch"] := by
  have h := pending_event_single_slot
    ({ initState with is_recording := true, csv_file := some [] })
    "Fire Stimulus" "Touch" "t1" "e1" "t2" "e2" 1 2 [] rfl rfl
  simpa using h.2.2.1

/-- C8: the reset-view action refills the ring buffer with the last valid
voltage, removes every active marker, and leaves the whole recorder state
(flag, run counter, open file, filename, saved files) and the pending event
untouched. -/
theorem reset_view_frame (s : MonitorState) :
    (func_clear s).data_buffer = List.replicate MAX_POINTS s.last_valid_voltage ∧
    (func_clear s).active_markers = [] ∧
    (func_clear s).is_recording = s.is_recording ∧
    (func_clear s).current_run_id = s.current_run_id ∧
    (func_clear s).csv_file = s.csv_file ∧
    (func_clear s).current_filename = s.current_filename ∧
    (func_clear s).saved_files = s.saved_files ∧
    (func_clear s).pending_event = s.pending_event ∧
    (func_clear s).last_valid_voltage = s.last_valid_voltage :=
  ⟨rfl, rfl, rfl, rfl, rfl, rfl, rfl, rfl, rfl⟩

/-- The function `processRaw` never touches the recorder bookkeeping: the recording flag,
run counter, filename, saved files and console are unchanged. -/
lemma processRaw_recorder_frame (s : MonitorState) (it : RawItem) :
    (processRaw s it).is_recording = s.is_recording ∧
    (processRaw s it).current_run_id = s.current_run_id ∧
    (processRaw s it).current_filename = s.current_filename ∧
    (processRaw s it).saved_files = s.saved_files ∧
    (processRaw s it).console = s.console := by
  match hit : it.2.2 with
  | none => simp [processRaw, hit]
  | some v => simp [processRaw, hit, processSample]

/-- While not recording, processing a raw line leaves the open-file slot
unchanged. -/
lemma processRaw_csv_idle (s : MonitorState) (it : RawItem)
    (h : s.is_recording = false) : (processRaw s it).csv_file = s.csv_file := by
  match hit : it.2.2 with
  | none => simp [processRaw, hit]
  | some v => simp [processRaw, hit, processSample, h]

/-- Folding the acquisition step over any raw lines while not recording:
the recording flag stays off, the open-file slot is untouched and nothing
is saved. -/
lemma foldl_processRaw_idle (items : List RawItem) :
    ∀ s : MonitorState, s.is_recording = false →
      (List.foldl processRaw s items).is_recording = false ∧
      (List.foldl processRaw s items).csv_file = s.csv_file ∧
      (List.foldl processRaw s items).saved_files = s.saved_files := by
  induction items with
  | nil => intro s h; exact ⟨h, rfl, rfl⟩
  | cons it items ih =>
    intro s h
    have hrec : (processRaw s it).is_recording = false :=
      (processRaw_recorder_frame s it).1.trans h
    obtain ⟨h1, h2, h3⟩ := ih (processRaw s it) hrec
    refine ⟨h1, ?_, ?_⟩
    · exact h2.trans (processRaw_csv_idle s it h)
    · exact h3.trans (processRaw_recorder_frame s it).2.2.2.1

/-- Folding the acquisition step over raw lines while recording with an
open file: exactly one data row is appended per accepted sample, and the
recording flag, saved files, filename and run counter are unchanged. -/
lemma foldl_processRaw_active (items : List RawItem) :
    ∀ (s : MonitorState) (f : List CsvRow),
      s.is_recording = true → s.csv_file = some f →
      ∃ newRows : List CsvRow,
        (List.foldl processRaw s items).csv_file = some (f ++ newRows) ∧
        (List.foldl processRaw s items).is_recording = true ∧
        (List.foldl processRaw s items).saved_files = s.saved_files ∧
        (List.foldl processRaw s items).current_filename = s.current_filename ∧
        newRows.length = countAccepted items ∧
        ∀ r ∈ newRows, ∃ a b v n, r = CsvRow.dataRow a b v n := by
  induction items with
  | nil =>
    intro s f h1 h2
    refine ⟨[], by simpa using h2, h1, rfl, rfl, by simp [countAccepted], by simp⟩
  | cons it items ih =>
    intro s f h1 h2
    match hit : it.2.2 with
    | none =>
      have hstep : processRaw s it = s := by simp [processRaw, hit]
      have hcount : countAccepted (it :: items) = countAccepted items := by
        simp [countAccepted, isAccepted, List.filter_cons, hit]
      obtain ⟨nr, ha, hb, hc, hd, he, hf⟩ := ih s f h1 h2
      rw [List.foldl_cons, hstep]
      exact ⟨nr, ha, hb, hc, hd, by rw [he, hcount], hf⟩
    | some v =>
      have hstep : processRaw s it = processSample it.1 it.2.1 v s := by
        simp [processRaw, hit]
      set note : String :=
        (match s.pending_event with
          | some l => l
          | none => "") with hnote
      have hcsv : (processSample it.1 it.2.1 v s).csv_file
          = some (f ++ [CsvRow.dataRow it.1 it.2.1 v note]) := by
        simp only [processSample, h1, h2, if_true]
      have hrec2 : (processSample it.1 it.2.1 v s).is_recording = true := h1
      obtain ⟨nr, ha, hb, hc, hd, he, hf⟩ :=
        ih (processSample it.1 it.2.1 v s) (f ++ [CsvRow.dataRow it.1 it.2.1 v note]) hrec2 hcsv
      have hcount : countAccepted (it :: items) = countAccepted items + 1 := by
        simp [countAccepted, isAccepted, List.filter_cons, hit, Nat.add_comm]
      refine ⟨CsvRow.dataRow it.1 it.2.1 v note :: nr, ?_, ?_, ?_, ?_, ?_, ?_⟩
      · rw [List.foldl_cons, hstep, ha]
        simp
      · rw [List.foldl_cons, hstep]; exact hb
      · rw [List.foldl_cons, hstep]
        exact hc.trans (by simp [processSample])
      · rw [List.foldl_cons, hstep]
        exact hd.trans (by simp [processSample])
      · simp only [List.length_cons, he, hcount]
      · intro r hr
        rcases List.mem_cons.mp hr with hr1 | hr2
        · exact ⟨it.1, it.2.1, v, note, hr1⟩
        · exact hf r hr2

/-- C5: when opening the session file fails during the start transition,
the start is aborted: the recording flag reverts to off, the failure
message is surfaced on the console, no file is open, and — with no
automatic retry — any number of subsequent acquisition steps writes no row
and saves no file. -/
theorem open_failure_aborts_start (s : MonitorState) (ts : String) (items : List RawItem)
    (hrec : s.is_recording = false) (hfile : s.csv_file = none) :
    (func_record_toggle false ts s).is_recording = false ∧
    (func_record_toggle false ts s).csv_file = none ∧
    (func_record_toggle false ts s).console = s.console ++ [MSG_CREATE_FAILED] ∧
    (List.foldl processRaw (func_record_toggle false ts s) items).is_recording = false ∧
    (List.foldl processRaw (func_record_toggle false ts s) items).csv_file = none ∧
    (List.foldl processRaw (func_record_toggle false ts s) items).saved_files
      = s.saved_files := by
  have h1 : (func_record_toggle false ts s).is_recording = false := by
    simp [func_record_toggle, hrec]
  have h2 : (func_record_toggle false ts s).csv_file = none := by
    simp [func_record_toggle, hrec, hfile]
  have h3 : (func_record_toggle false ts s).console = s.console ++ [MSG_CREATE_FAILED] := by
    simp [func_record_toggle, hrec]
  have h4 : (func_record_toggle false ts s).saved_files = s.saved_files := by
    simp [func_record_toggle, hrec]
  obtain ⟨g1, g2, g3⟩ := foldl_processRaw_idle items (func_record_toggle false ts s) h1
  exact ⟨h1, h2, h3, g1, g2.trans h2, g3.trans h4⟩

/-- Witness for C5: a failed start from the initial state, followed by two
accepted samples, records nothing. -/
theorem open_failure_aborts_start_witness :
    (List.foldl processRaw (func_record_toggle false "101010" initState)
        [("t1", "e1", some 1), ("t2", "e2", some 2)]).csv_file = none ∧
    (List.foldl processRaw (func_record_toggle false "101010" initState)
        [("t1", "e1", some 1), ("t2", "e2", some 2)]).saved_files = [] :=
  ⟨(open_failure_aborts_start initState "101010"
      [("t1", "e1", some 1), ("t2", "e2", some 2)] rfl rfl).2.2.2.2.1,
   (open_failure_aborts_start initState "101010"
      [("t1", "e1", some 1), ("t2", "e2", some 2)] rfl rfl).2.2.2.2.2⟩

/-- C9: a failed start has already incremented the run counter and changed
the displayed filename to the failed file's name, and neither is reverted —
only the recording flag is reset — so the next successful start uses a run
number that skips the failed index. -/
theorem failed_start_consumes_run_index (s : MonitorState) (ts ts2 : String)
    (hrec : s.is_recording = false) :
    (func_record_toggle false ts s).current_run_id = s.current_run_id + 1 ∧
    (func_record_toggle false ts s).current_filename
      = "Run_" ++ fmt2 (s.current_run_id + 1) ++ "_" ++ ts ++ ".csv" ∧
    (func_record_toggle false ts s).is_recording = false ∧
    (func_record_toggle false ts s).csv_file = s.csv_file ∧
    (func_record_toggle true ts2 (func_record_toggle false ts s)).current_run_id
      = s.current_run_id + 2 ∧
    (func_record_toggle true ts2 (func_record_toggle false ts s)).is_recording = true ∧
    (func_record_toggle true ts2 (func_record_toggle false ts s)).current_filename
      = "Run_" ++ fmt2 (s.current_run_id + 2) ++ "_" ++ ts2 ++ ".csv" := by
  have hs1 : func_record_toggle false ts s =
      { s with
        is_recording := false
        current_run_id := s.current_run_id + 1
        current_filename := "Run_" ++ fmt2 (s.current_run_id + 1) ++ "_" ++ ts ++ ".csv"
        console := s.console ++ [MSG_CREATE_FAILED] } := by
    simp [func_record_toggle, hrec]
  rw [hs1]
  refine ⟨rfl, rfl, rfl, rfl, ?_, ?_, ?_⟩
  · simp [func_record_toggle]
  · simp [func_record_toggle]
  · simp [func_record_toggle]

/-- Witness for C9 from the initial state: the failed first start burns run
index 1 and the next successful start records under run index 2. -/
theorem failed_start_consumes_run_index_witness :
    (func_record_toggle false "101010" initState).current_run_id = 1 ∧
    (func_record_toggle true "111111" (func_record_toggle false "101010" initState)).current_run_id = 2 :=
  ⟨(failed_start_consumes_run_index initState "101010" "111111" rfl).1,
   (failed_start_consumes_run_index initState "101010" "111111" rfl).2.2.2.2.1⟩

/-- C6 counterexample: at a concrete start, the header row the code writes
is `Timestamp, Time_Sec, Voltage, Event_Note`, which differs from the
claimed field names `Timestamp, ElapsedSeconds, Voltage, EventNote`. -/
theorem header_fields_counterexample :
    (func_record_toggle true "093000" initState).csv_file
      = some [CsvRow.headerRow ["Timestamp", "Time_Sec", "Voltage", "Event_Note"]] ∧
    (func_record_toggle true "093000" initState).csv_file
      ≠ some [CsvRow.headerRow ["Timestamp", "ElapsedSeconds", "Voltage", "EventNote"]] := by
  constructor
  · simp [func_record_toggle, initState, CSV_HEADER]
  · simp [func_record_toggle, initState, CSV_HEADER]

/-- C6 (amended): the start transition writes the fixed four-field header
row `Timestamp, Time_Sec, Voltage, Event_Note`. -/
theorem start_writes_fixed_header (s : MonitorState) (ts : String)
    (hrec : s.is_recording = false) :
    (func_record_toggle true ts s).csv_file
      = some [CsvRow.headerRow ["Timestamp", "Time_Sec", "Voltage", "Event_Note"]] := by
  simp [func_record_toggle, hrec, CSV_HEADER]

/-- Witness for the amended C6 at the initial state. -/
theorem start_writes_fixed_header_witness :
    (func_record_toggle true "093000" initState).csv_file
      = some [CsvRow.headerRow ["Timestamp", "Time_Sec", "Voltage", "Event_Note"]] :=
  start_writes_fixed_header initState "093000" rfl

/-- The stop transition on a recording state with an open file: the flag is
cleared, the handle closed, and the rows persist under the session's
filename. -/
lemma toggle_stop_eq (s2 : MonitorState) (rows : List CsvRow) (ts2 : String)
    (hb : s2.is_recording = true) (ha : s2.csv_file = some rows) :
    func_record_toggle true ts2 s2 =
      { s2 with
        is_recording := false
        csv_file := none
        saved_files := s2.saved_files ++ [(s2.current_filename, rows)]
        console := s2.console ++ ["saved: " ++ s2.current_filename] } := by
  simp [func_record_toggle, hb, ha]

/-- C2: starting a session, observing any raw lines, then stopping saves
exactly one new CSV file, named from the incremented run index and the
start timestamp; its first row is the header
`Timestamp, Time_Sec, Voltage, Event_Note` and it has one data row per
accepted sample observed while active. -/
theorem recording_session_csv (s : MonitorState) (ts ts2 : String) (items : List RawItem)
    (hrec : s.is_recording = false) (hfile : s.csv_file = none) :
    ∃ dataRows : List CsvRow,
      (func_record_toggle true ts2
          (List.foldl processRaw (func_record_toggle true ts s) items)).saved_files
        = s.saved_files ++
            [("Run_" ++ fmt2 (s.current_run_id + 1) ++ "_" ++ ts ++ ".csv",
              CsvRow.headerRow ["Timestamp", "Time_Sec", "Voltage", "Event_Note"] :: dataRows)] ∧
      dataRows.length = countAccepted items ∧
      (∀ r ∈ dataRows, ∃ a b v n, r = CsvRow.dataRow a b v n) ∧
      (func_record_toggle true ts2
          (List.foldl processRaw (func_record_toggle true ts s) items)).is_recording = false ∧
      (func_record_toggle true ts2
          (List.foldl processRaw (func_record_toggle true ts s) items)).csv_file = none := by
  have hs1 : func_record_toggle true ts s =
      { s with
        is_recording := true
        current_run_id := s.current_run_id + 1
        current_filename := "Run_" ++ fmt2 (s.current_run_id + 1) ++ "_" ++ ts ++ ".csv"
        csv_file := some [CsvRow.headerRow CSV_HEADER]
        console := s.console ++
          ["REC start: " ++ ("Run_" ++ fmt2 (s.current_run_id + 1) ++ "_" ++ ts ++ ".csv")] } := by
    simp [func_record_toggle, hrec]
  obtain ⟨nr, ha, hb, hc, hd, he, hf⟩ :=
    foldl_processRaw_active items (func_record_toggle true ts s) [CsvRow.headerRow CSV_HEADER]
      (by rw [hs1]) (by rw [hs1])
  have hstop := toggle_stop_eq (List.foldl processRaw (func_record_toggle true ts s) items)
    ([CsvRow.headerRow CSV_HEADER] ++ nr) ts2 hb ha
  refine ⟨nr, ?_, he, hf, ?_, ?_⟩
  · rw [hstop]
    simp only [MonitorState.saved_files]
    rw [hc, hd, hs1]
    simp [CSV_HEADER]
  · rw [hstop]
  · rw [hstop]

/-- Witness for C2: a session from the initial state over three raw lines,
one of them malformed, saves one file with the header and two data rows. -/
theorem recording_session_csv_witness :
    ∃ dataRows : List CsvRow,
      (func_record_toggle true "112233"
          (List.foldl processRaw (func_record_toggle true "112200" initState)
            [("t1", "e1", some 1), ("t2", "e2", none), ("t3", "e3", some 2)])).saved_files
        = initState.saved_files ++
            [("Run_" ++ fmt2 (initState.current_run_id + 1) ++ "_" ++ "112200" ++ ".csv",
              CsvRow.headerRow ["Timestamp", "Time_Sec", "Voltage", "Event_Note"] :: dataRows)] ∧
      dataRows.length = countAccepted
        [("t1", "e1", some 1), ("t2", "e2", none), ("t3", "e3", some 2)] ∧
      (∀ r ∈ dataRows, ∃ a b v n, r = CsvRow.dataRow a b v n) ∧
      (func_record_toggle true "112233"
          (List.foldl processRaw (func_record_toggle true "112200" initState)
            [("t1", "e1", some 1), ("t2", "e2", none), ("t3", "e3", some 2)])).is_recording = false ∧
      (func_record_toggle true "112233"
          (List.foldl processRaw (func_record_toggle true "112200" initState)
            [("t1", "e1", some 1), ("t2", "e2", none), ("t3", "e3", some 2)])).csv_file = none :=
  recording_session_csv initState "112200" "112233"
    [("t1", "e1", some 1), ("t2", "e2", none), ("t3", "e3", some 2)] rfl rfl

lemma trend_ne_wait {buf : List ℚ} (h : 50 ≤ buf.length) : trend buf ≠ Trend.Wait := by
  have hn : ¬ buf.length < 50 := not_lt.mpr h
  simp only [trend, hn, if_false]
  split
  · exact fun hc => Trend.noConfusion hc
  · split
    · exact fun hc => Trend.noConfusion hc
    · exact fun hc => Trend.noConfusion hc

lemma foldl_min_zero_replicate : ∀ n : ℕ, List.foldl min (0 : ℚ) (List.replicate n 0) = 0 := by
  intro n
  induction n with
  | zero => rfl
  | succ n ih => simpa [List.replicate_succ] using ih

lemma foldl_max_zero_replicate : ∀ n : ℕ, List.foldl max (0 : ℚ) (List.replicate n 0) = 0 := by
  intro n
  induction n with
  | zero => rfl
  | succ n ih => simpa [List.replicate_succ] using ih

lemma npMin_replicate_zero_append (m : ℕ) (v : ℚ) (hv : 0 ≤ v) :
    npMin (List.replicate (m + 1) 0 ++ [v]) = 0 := by
  rw [List.replicate_succ, List.cons_append]
  show List.foldl min 0 (List.replicate m (0 : ℚ) ++ [v]) = 0
  rw [List.foldl_append, foldl_min_zero_replicate]
  show min (0 : ℚ) v = 0
  exact min_eq_left hv

lemma npMax_replicate_zero_append (m : ℕ) (v : ℚ) (hv : 0 ≤ v) :
    npMax (List.replicate (m + 1) 0 ++ [v]) = v := by
  rw [List.replicate_succ, List.cons_append]
  show List.foldl max 0 (List.replicate m (0 : ℚ) ++ [v]) = v
  rw [List.foldl_append, foldl_max_zero_replicate]
  show max (0 : ℚ) v = v
  exact max_eq_right hv

/-- C10: the ring buffer starts out already full of `MAX_POINTS` zero
fillers, so after any sequence of accepted samples its length is still
`MAX_POINTS` and the `Wait` classification is never produced; until
`MAX_POINTS` real samples have arrived the snapshot is the fillers followed
by the real samples, so the displayed statistics mix fillers with data: the
mean divides the samples' sum by `MAX_POINTS`, and after one sample `5` the
minimum is the filler `0` while the maximum is `5`. -/
theorem initial_buffer_prefilled (xs : List ℚ) :
    initBuffer = List.replicate MAX_POINTS 0 ∧
    (List.foldl pushBuffer initBuffer xs).length = MAX_POINTS ∧
    (xs.length ≤ MAX_POINTS →
      List.foldl pushBuffer initBuffer xs
        = List.replicate (MAX_POINTS - xs.length) 0 ++ xs) ∧
    trend (List.foldl pushBuffer initBuffer xs) ≠ Trend.Wait ∧
    (xs.length ≤ MAX_POINTS →
      npMean (List.foldl pushBuffer initBuffer xs) = xs.sum / (MAX_POINTS : ℚ)) ∧
    npMin (List.foldl pushBuffer initBuffer [(5 : ℚ)]) = 0 ∧
    npMax (List.foldl pushBuffer initBuffer [(5 : ℚ)]) = 5 := by
  obtain ⟨hlen, heq⟩ := foldl_pushBuffer_of_full xs initBuffer (by simp [initBuffer])
  have hstruct : xs.length ≤ MAX_POINTS →
      List.foldl pushBuffer initBuffer xs
        = List.replicate (MAX_POINTS - xs.length) 0 ++ xs := by
    intro hk
    rw [heq, initBuffer]
    rw [List.drop_append_of_le_length (by rw [List.length_replicate]; exact hk)]
    rw [List.drop_replicate]
  have hone : List.foldl pushBuffer initBuffer [(5 : ℚ)]
      = List.replicate (MAX_POINTS - 1) 0 ++ [(5 : ℚ)] := by
    have h2 := (foldl_pushBuffer_of_full [(5 : ℚ)] initBuffer (by simp [initBuffer])).2
    rw [h2, initBuffer]
    rw [List.drop_append_of_le_length
      (by rw [List.length_replicate]; norm_num [MAX_POINTS])]
    rw [List.drop_replicate]
    norm_num
  have h299 : MAX_POINTS - 1 = 298 + 1 := by norm_num [MAX_POINTS]
  refine ⟨rfl, hlen, hstruct, ?_, ?_, ?_, ?_⟩
  · exact trend_ne_wait (by rw [hlen]; norm_num [MAX_POINTS])
  · intro hk
    rw [hstruct hk]
    unfold npMean
    rw [List.sum_append, List.length_append, List.sum_replicate, List.length_replicate]
    rw [smul_zero, zero_add, Nat.sub_add_cancel hk]
  · rw [hone, h299]
    exact npMin_replicate_zero_append 298 5 (by norm_num)
  · rw [hone, h299]
    exact npMax_replicate_zero_append 298 5 (by norm_num)

/-- Witness for C10 at one pushed sample. -/
theorem initial_buffer_prefilled_witness :
    List.foldl pushBuffer initBuffer [(5 : ℚ)]
      = List.replicate (MAX_POINTS - [(5 : ℚ)].length) 0 ++ [(5 : ℚ)] ∧
    npMean (List.foldl pushBuffer initBuffer [(5 : ℚ)]) = [(5 : ℚ)].sum / (MAX_POINTS : ℚ) :=
  ⟨(initial_buffer_prefilled [(5 : ℚ)]).2.2.1 (by norm_num [MAX_POINTS]),
   (initial_buffer_prefilled [(5 : ℚ)]).2.2.2.2.1 (by norm_num [MAX_POINTS])⟩
